import Mathlib

/-!
Shallow embedding of the agent orchestration loop of the
`state-machine-agent` repository (middleware.ts, tools.ts, utils.ts),
together with theorems checking its natural-language specification.

The middleware owns a small persistent state (`contextHistory`,
`currentTask`), inspects the last executed tool call in
`modifyModelRequest` (termination check) and in `afterModel`
(transition rules), and the helper `runAgent` in utils.ts drives the
interrupt/resume protocol for human replies.
-/

/-- One entry of `runtime.toolCalls`: the executed tool's name and its
textual result.  middleware.ts reads `lastToolCall?.name` and
`lastToolCall?.result`. -/
structure ToolCall where
  name : String
  result : String
deriving DecidableEq, Repr

/-- The middleware state declared by `stateSchema` in middleware.ts:
`contextHistory : string[]` (default `[]`) and an optional
`currentTask : string`. -/
structure SessionState where
  contextHistory : List String
  currentTask : Option String
deriving DecidableEq, Repr

/-- The parts of the model request that `modifyModelRequest` reads or
overrides: `tools`, `systemPrompt` and `toolChoice` (the remaining
request fields are spread through unchanged). -/
structure ModelRequest where
  tools : List String
  systemPrompt : String
  toolChoice : String
deriving DecidableEq, Repr

/-- Decides whether `pat` occurs at the very front of `cs`. -/
def isPreOf : List Char → List Char → Bool
  | [], _ => true
  | _ :: _, [] => false
  | a :: as, b :: bs => (a == b) && isPreOf as bs

/-- Decides whether `needle` occurs as a contiguous substring of `hay`:
the semantics of JavaScript `String.prototype.includes`. -/
def containsSub : List Char → List Char → Bool
  | [], needle => needle.isEmpty
  | c :: t, needle => isPreOf needle (c :: t) || containsSub t needle

/-- JavaScript `hay.includes(needle)`. -/
def jsIncludes (hay needle : String) : Bool :=
  containsSub hay.data needle.data

/-- JavaScript `s.toLowerCase()`, restricted to the ASCII mapping
(`Char.toLower`); every reply this program compares is ASCII. -/
def toLowerStr (s : String) : String :=
  String.mk (s.data.map Char.toLower)

/-- Strips `pat` from the front of `cs`, returning the remainder when
`pat` is a prefix and `none` otherwise. -/
def stripPre : List Char → List Char → Option (List Char)
  | [], cs => some cs
  | _ :: _, [] => none
  | p :: ps, c :: cs => if p == c then stripPre ps cs else none

/-- Splits off the maximal leading run of decimal digits.  In the regex
`task_\d+ - ` the quantifier `\d+` is greedy and a digit can never match
the following literal space, so the engine consumes exactly this run. -/
def takeDigits : List Char → List Char × List Char
  | [] => ([], [])
  | c :: cs =>
    if c.isDigit then
      let p := takeDigits cs
      (c :: p.1, p.2)
    else ([], c :: cs)

/-- Splits off the maximal leading run of non-quote characters (the
greedy `[^"]+`, whose element can never match the closing quote). -/
def takeNonQuote : List Char → List Char × List Char
  | [] => ([], [])
  | c :: cs =>
    if c == '"' then ([], c :: cs)
    else
      let p := takeNonQuote cs
      (c :: p.1, p.2)

/-- Attempts the regex `NEW TASK CONFIRMED: (task_\d+) - "([^"]+)"`
(middleware.ts line 95) at the head of `cs`, returning the two capture
groups on success. -/
def confirmedAt (cs : List Char) : Option (String × String) :=
  match stripPre "NEW TASK CONFIRMED: task_".data cs with
  | none => none
  | some r1 =>
    let d := takeDigits r1
    if d.1.isEmpty then none
    else
      match stripPre " - \"".data d.2 with
      | none => none
      | some r2 =>
        let l := takeNonQuote r2
        if l.1.isEmpty then none
        else
          match l.2 with
          | '"' :: _ => some (String.mk ("task_".data ++ d.1), String.mk l.1)
          | _ => none

/-- Leftmost match of `confirmedAt`, i.e. JavaScript
`result.match(/NEW TASK CONFIRMED: (task_\d+) - "([^"]+)"/)`. -/
def scanConfirmed : List Char → Option (String × String)
  | [] => none
  | c :: cs =>
    match confirmedAt (c :: cs) with
    | some p => some p
    | none => scanConfirmed cs

/-- `result.match(/NEW TASK CONFIRMED: (task_\d+) - "([^"]+)"/)`, as the
pair of capture groups of the leftmost match. -/
def matchTaskConfirmed (s : String) : Option (String × String) :=
  scanConfirmed s.data

/-- Attempts the regex `TASK FEEDBACK: "([^"]+)"` (middleware.ts
line 107) at the head of `cs`. -/
def feedbackAt (cs : List Char) : Option String :=
  match stripPre "TASK FEEDBACK: \"".data cs with
  | none => none
  | some r1 =>
    let l := takeNonQuote r1
    if l.1.isEmpty then none
    else
      match l.2 with
      | '"' :: _ => some (String.mk l.1)
      | _ => none

/-- Leftmost match of `feedbackAt`. -/
def scanFeedback : List Char → Option String
  | [] => none
  | c :: cs =>
    match feedbackAt (c :: cs) with
    | some p => some p
    | none => scanFeedback cs

/-- `result.match(/TASK FEEDBACK: "([^"]+)"/)`, as the capture group of
the leftmost match. -/
def matchTaskFeedback (s : String) : Option String :=
  scanFeedback s.data

/-- JavaScript `lastToolCall?.name`. -/
def lastName : Option ToolCall → Option String
  | some tc => some tc.name
  | none => none

/-- JavaScript `(lastToolCall?.result as string) || ""`. -/
def lastResult : Option ToolCall → String
  | some tc => tc.result
  | none => ""

/-- The text JavaScript interpolates for `${lastToolCall?.name}` inside
a template literal. -/
def nameText : Option ToolCall → String
  | some tc => tc.name
  | none => "undefined"

/-- The satisfaction test applied to a completion reply,
`(lastToolCall?.result as string)?.toLowerCase().includes("y")`
(middleware.ts line 52). -/
def resultIndicatesSatisfaction (result : String) : Bool :=
  jsIncludes (toLowerStr result) "y"

/-- `isUserSatisfied` (middleware.ts lines 49-52): there is a recorded
history, the last tool call is `attempt_completion`, and its lowercased
result contains `"y"`. -/
def isUserSatisfied (state : SessionState) (lastToolCall : Option ToolCall) : Bool :=
  decide (0 < state.contextHistory.length)
  && decide (lastName lastToolCall = some "attempt_completion")
  && (match lastToolCall with
      | some tc => resultIndicatesSatisfaction tc.result
      | none => false)

/-- `classificationPromptTemplate` from prompts.ts, with `%s` slots for
the current task, the joined history and the focus hint. -/
def classificationPromptTemplate : String :=
  "You are Cline, an intelligent coding agent that operates in a recursive loop.\n\nCURRENT CONTEXT:\n- Current task: %s\n- Context history: %s\n\nTOOL CATEGORIES (choose the appropriate type):\n\n📋 NEW TASK TOOLS: Use when you need to define what needs to be done\n- new_task: Define and confirm a new task with the user\n\n🤔 QUESTION TOOLS: Use when you need clarification (WAIT for user input)\n- ask_for_clarification: When stuck or need help\n- confirm_action: Before risky operations\n\n⚡ ACTION TOOLS: Use to gather context and do work (ALWAYS continue)\n- read_file: Read specific files\n- list_files: Explore directories  \n- search_files: Find patterns/content\n- write_to_file: Make changes\n\n✅ COMPLETION TOOLS: Use to present results and check user satisfaction\n- attempt_completion: Present results and ask if user is satisfied\n\nRECURSIVE LOOP LOGIC:\n1. Choose appropriate tool based on current situation\n2. Tool result gets added to context\n3. Loop continues with enriched context\n4. Only attempt_completion can end the loop (if user is satisfied)\n\nCRITICAL RULES:\n- You MUST use a tool - no plain text responses allowed\n- If task mentions a specific file (like \"a.ts\"), work ONLY with that file\n- Try read_file with the exact filename first before searching broadly\n- Don\x27t get distracted by other files in search results\n- Stay laser-focused on the current task\n- Only call attempt_completion when you have actually completed meaningful work\n- Don\x27t call attempt_completion multiple times for the same task\n\n%s\n    \nIMPORTANT: Make only ONE tool call at a time. Do not make multiple tool calls in parallel."

/-- Sequential `%s` substitution, the part of node `util.format` this
program exercises (three string arguments, three `%s` slots). -/
def substPercentS : List Char → List String → List Char
  | [], _ => []
  | '%' :: 's' :: rest, a :: args => a.data ++ substPercentS rest args
  | c :: rest, args => c :: substPercentS rest args

/-- `format(template, ...)` from node `util`, for `%s` slots. -/
def formatS (template : String) (args : List String) : String :=
  String.mk (substPercentS template.data args)

/-- `currentTask || "No active task"` (JavaScript truthiness: the empty
string also counts as absent). -/
def taskText : Option String → String
  | some t => if t.isEmpty then "No active task" else t
  | none => "No active task"

/-- The third format argument of `modifyModelRequest`:
`currentTask ? FOCUS ... : START ...`. -/
def focusHint : Option String → String
  | some t =>
    if t.isEmpty then "START: Define a new task first"
    else "FOCUS: You are working on \"" ++ t
      ++ "\". If it mentions a specific file, work with that file directly!"
  | none => "START: Define a new task first"

/-- `modifyModelRequest` (middleware.ts lines 34-84): when the user is
satisfied the request is stripped of every tool and told to make no
tool call, which ends the loop; otherwise the classification prompt is
installed and tool use is forced. -/
def modifyModelRequest (request : ModelRequest) (state : SessionState)
    (lastToolCall : Option ToolCall) : ModelRequest :=
  if isUserSatisfied state lastToolCall then
    { request with
        tools := []
        systemPrompt := "Task has been completed successfully. No further actions needed."
        toolChoice := "none" }
  else
    { request with
        systemPrompt :=
          formatS classificationPromptTemplate
            [taskText state.currentTask,
             String.intercalate " → " state.contextHistory,
             focusHint state.currentTask]
        toolChoice := "required" }

/-- `result.includes("Error:") || result.includes("does not exist")`
(middleware.ts lines 132-133).  tools.ts encodes every action failure as
such a marker inside the result text, e.g.
`Error: File "x" does not exist.` from `read_file`. -/
def hasErrorMarker (result : String) : Bool :=
  jsIncludes result "Error:" || jsIncludes result "does not exist"

/-- The context entry of the generic branch (middleware.ts
lines 134-141). -/
def genericEntry (lastToolCall : Option ToolCall) (result : String) : String :=
  if hasErrorMarker result then nameText lastToolCall ++ ": encountered error"
  else nameText lastToolCall ++ ": completed successfully"

/-- The tail of `afterModel` reached when neither `new_task` branch
returned early: the completion reset (middleware.ts lines 122-127)
followed by the generic context note (lines 130-141). -/
def afterModelRest (state : SessionState) (lastToolCall : Option ToolCall)
    (result : String) : SessionState :=
  if lastName lastToolCall = some "attempt_completion" ∧ jsIncludes result "y" = true then
    { contextHistory := [], currentTask := none }
  else
    { currentTask := state.currentTask
      contextHistory := state.contextHistory ++ [genericEntry lastToolCall result] }

/-- `afterModel` (middleware.ts lines 85-143).  The returned object is
read as the next state: a branch that omits `currentTask` leaves it
unchanged, and the confirmed branch stores the (possibly undefined)
second capture group. -/
def afterModel (state : SessionState) (lastToolCall : Option ToolCall) : SessionState :=
  let result := lastResult lastToolCall
  if lastName lastToolCall = some "new_task" then
    if jsIncludes result "NEW TASK CONFIRMED:" = true then
      match matchTaskConfirmed result with
      | some p =>
        { currentTask := some p.2
          contextHistory := state.contextHistory ++ ["Started task: " ++ p.2] }
      | none =>
        { currentTask := none
          contextHistory := state.contextHistory ++ ["Started task: undefined"] }
    else if jsIncludes result "TASK FEEDBACK:" = true then
      match matchTaskFeedback result with
      | some feedback =>
        { currentTask := state.currentTask
          contextHistory := state.contextHistory ++ ["Task feedback: " ++ feedback] }
      | none => afterModelRest state lastToolCall result
    else afterModelRest state lastToolCall result
  else afterModelRest state lastToolCall result

/-- The state `stateSchema` defaults to before any transition ran. -/
def initialState : SessionState :=
  { contextHistory := [], currentTask := none }

/-- One loop iteration's state transition, driven by the outcome of the
iteration's last tool call. -/
def stepState (s : SessionState) (tc : ToolCall) : SessionState :=
  afterModel s (some tc)

/-- The state after a sequence of tool-call outcomes, starting from the
empty state. -/
def runTrace (tcs : List ToolCall) : SessionState :=
  tcs.foldl stepState initialState

/-- The four behavioral categories of the action catalog (tools.ts
section headers and the README's classification). -/
inductive Category where
  | NEW_TASK
  | QUESTION
  | ACTION
  | COMPLETION
deriving DecidableEq, Repr

/-- The static action catalog: the seven tools registered by the
middleware, grouped as in tools.ts (task management, question, action,
completion). -/
def categoryOf (n : String) : Option Category :=
  if n = "new_task" then some Category.NEW_TASK
  else if n = "ask_for_clarification" then some Category.QUESTION
  else if n = "read_file" ∨ n = "list_files" ∨ n = "search_files" ∨ n = "write_to_file" then
    some Category.ACTION
  else if n = "attempt_completion" then some Category.COMPLETION
  else none

/-- The `tools` array the middleware registers (middleware.ts
lines 25-33), by tool name. -/
def middlewareToolNames : List String :=
  ["new_task", "ask_for_clarification", "read_file", "list_files",
   "search_files", "write_to_file", "attempt_completion"]

/-- The whitespace removed by JavaScript `String.prototype.trim` on the
characters this program can receive from a terminal line. -/
def isJsWhitespace (c : Char) : Bool :=
  c == ' ' || c == '\t' || c == '\n' || c == '\r' || c == '\x0B' || c == '\x0C'

/-- JavaScript falsiness of `response.trim()`: the reply is empty or
all whitespace. -/
def isBlank (s : String) : Bool :=
  s.data.all isJsWhitespace

/-- The reply-acquisition loop of `runAgent` (utils.ts lines 46-56),
run against the stream of successive human replies: a blank reply on a
`y/N` prompt is accepted as `"N"`, a blank reply on any other prompt is
re-prompted (the next reply of the stream is consulted), and a
non-blank reply is accepted as-is.  `none` means the stream was
exhausted while the loop was still re-prompting. -/
def obtainReply (label : String) : List String → Option String
  | [] => none
  | r :: rest =>
    if isBlank r then
      if jsIncludes label "y/N" then some "N"
      else obtainReply label rest
    else some r

/-- The interrupt prompt of the `new_task` tool (tools.ts line 20). -/
def newTaskLabel : String := "❓ Is this task correct? (y/N): "

/-- The interrupt prompt of the `ask_for_clarification` tool (tools.ts
line 46). -/
def clarificationLabel : String := "❓ Please provide clarification: "

/-- The interrupt prompt of the `attempt_completion` tool (tools.ts
line 369). -/
def satisfactionLabel : String := "❓ Are you satisfied with these results? (y/N): "

/-- The `read_file` result text for a missing file (tools.ts line 90). -/
def readFileMissingMsg (filepath : String) : String :=
  "Error: File \"" ++ filepath ++ "\" does not exist."

/-- A model request as handed to the middleware before modification. -/
def sampleRequest : ModelRequest :=
  { tools := middlewareToolNames, systemPrompt := "", toolChoice := "auto" }

lemma lastName_some (tc : ToolCall) : lastName (some tc) = some tc.name := rfl

lemma lastResult_some (tc : ToolCall) : lastResult (some tc) = tc.result := rfl

lemma nameText_some (tc : ToolCall) : nameText (some tc) = tc.name := rfl

lemma toLowerStr_data (s : String) : (toLowerStr s).data = s.data.map Char.toLower := rfl

lemma containsSub_singleton (c : Char) (hay : List Char) :
    containsSub hay [c] = true ↔ c ∈ hay := by
  induction hay with
  | nil => simp [containsSub]
  | cons b t ih =>
    simp only [containsSub, isPreOf, Bool.and_true, Bool.or_eq_true, ih, List.mem_cons,
      beq_iff_eq]

lemma jsIncludes_y_iff (s : String) : jsIncludes s "y" = true ↔ 'y' ∈ s.data := by
  have h : "y".data = ['y'] := rfl
  unfold jsIncludes
  rw [h]
  exact containsSub_singleton 'y' s.data

/-- The satisfaction test succeeds exactly when some character of the
reply lowercases to `y`. -/
lemma satisfaction_iff (r : String) :
    resultIndicatesSatisfaction r = true ↔ ∃ c ∈ r.data, Char.toLower c = 'y' := by
  unfold resultIndicatesSatisfaction
  rw [jsIncludes_y_iff, toLowerStr_data, List.mem_map]

/-- A raw occurrence of `"y"` also survives `toLowerCase()`. -/
lemma satisfaction_of_raw (r : String) (h : jsIncludes r "y" = true) :
    resultIndicatesSatisfaction r = true := by
  rw [jsIncludes_y_iff] at h
  rw [satisfaction_iff]
  exact ⟨'y', h, rfl⟩

/-- Branch of `afterModel` taken on a recognized task confirmation. -/
lemma afterModel_confirmed_some (s : SessionState) (tc : ToolCall) (p : String × String)
    (hn : tc.name = "new_task") (hc : jsIncludes tc.result "NEW TASK CONFIRMED:" = true)
    (hm : matchTaskConfirmed tc.result = some p) :
    afterModel s (some tc)
      = { currentTask := some p.2
          contextHistory := s.contextHistory ++ ["Started task: " ++ p.2] } := by
  simp [afterModel, lastName_some, lastResult_some, hn, hc, hm]

/-- Branch of `afterModel` taken on a result that contains the
confirmation marker but fails the full pattern: the interpolation of
the undefined capture group. -/
lemma afterModel_confirmed_none (s : SessionState) (tc : ToolCall)
    (hn : tc.name = "new_task") (hc : jsIncludes tc.result "NEW TASK CONFIRMED:" = true)
    (hm : matchTaskConfirmed tc.result = none) :
    afterModel s (some tc)
      = { currentTask := none
          contextHistory := s.contextHistory ++ ["Started task: undefined"] } := by
  simp [afterModel, lastName_some, lastResult_some, hn, hc, hm]

/-- Branch of `afterModel` taken on recognized task feedback. -/
lemma afterModel_feedback_some (s : SessionState) (tc : ToolCall) (fb : String)
    (hn : tc.name = "new_task") (hc : jsIncludes tc.result "NEW TASK CONFIRMED:" = false)
    (hf : jsIncludes tc.result "TASK FEEDBACK:" = true)
    (hm : matchTaskFeedback tc.result = some fb) :
    afterModel s (some tc)
      = { currentTask := s.currentTask
          contextHistory := s.contextHistory ++ ["Task feedback: " ++ fb] } := by
  simp [afterModel, lastName_some, lastResult_some, hn, hc, hf, hm]

/-- When no `new_task` branch returns early, `afterModel` reduces to
its tail `afterModelRest`. -/
lemma afterModel_rest_eq (s : SessionState) (tc : ToolCall)
    (h : tc.name ≠ "new_task"
       ∨ (jsIncludes tc.result "NEW TASK CONFIRMED:" = false
          ∧ (jsIncludes tc.result "TASK FEEDBACK:" = false ∨ matchTaskFeedback tc.result = none))) :
    afterModel s (some tc) = afterModelRest s (some tc) tc.result := by
  rcases h with h | ⟨h1, h2⟩
  · simp [afterModel, lastName_some, lastResult_some, h]
  · rcases h2 with h2 | h2
    · simp [afterModel, lastName_some, lastResult_some, h1, h2]
    · by_cases hf : jsIncludes tc.result "TASK FEEDBACK:" = true
      · simp [afterModel, lastName_some, lastResult_some, h1, hf, h2]
      · simp [afterModel, lastName_some, lastResult_some, h1, hf]

/-- `afterModelRest` either performs the completion reset or appends
the generic context note. -/
lemma afterModelRest_cases (s : SessionState) (tc : ToolCall) :
    (afterModelRest s (some tc) tc.result = { contextHistory := [], currentTask := none }
      ∧ tc.name = "attempt_completion" ∧ jsIncludes tc.result "y" = true)
    ∨ (afterModelRest s (some tc) tc.result
        = { currentTask := s.currentTask
            contextHistory := s.contextHistory ++ [genericEntry (some tc) tc.result] }
       ∧ ¬(tc.name = "attempt_completion" ∧ jsIncludes tc.result "y" = true)) := by
  by_cases h : tc.name = "attempt_completion" ∧ jsIncludes tc.result "y" = true
  · left
    refine ⟨?_, h⟩
    simp [afterModelRest, lastName_some, h.1, h.2]
  · right
    refine ⟨?_, h⟩
    unfold afterModelRest
    rw [if_neg]
    intro hc
    exact h ⟨by simpa [lastName_some] using hc.1, hc.2⟩

/-- The generic branch of `afterModelRest`, reached whenever the last
tool call is not a satisfied completion. -/
lemma afterModelRest_generic (s : SessionState) (tc : ToolCall)
    (h : tc.name ≠ "attempt_completion") :
    afterModelRest s (some tc) tc.result
      = { currentTask := s.currentTask
          contextHistory := s.contextHistory ++ [genericEntry (some tc) tc.result] } := by
  unfold afterModelRest
  rw [if_neg]
  intro hc
  exact h (by simpa [lastName_some] using hc.1)

/-- Exhaustive description of the five outcomes of one `afterModel`
step. -/
lemma afterModel_shape (s : SessionState) (tc : ToolCall) :
    (∃ p, tc.name = "new_task" ∧ jsIncludes tc.result "NEW TASK CONFIRMED:" = true
        ∧ matchTaskConfirmed tc.result = some p
        ∧ afterModel s (some tc)
            = { currentTask := some p.2
                contextHistory := s.contextHistory ++ ["Started task: " ++ p.2] })
    ∨ (tc.name = "new_task" ∧ jsIncludes tc.result "NEW TASK CONFIRMED:" = true
        ∧ matchTaskConfirmed tc.result = none
        ∧ afterModel s (some tc)
            = { currentTask := none
                contextHistory := s.contextHistory ++ ["Started task: undefined"] })
    ∨ (∃ fb, tc.name = "new_task" ∧ jsIncludes tc.result "NEW TASK CONFIRMED:" = false
        ∧ jsIncludes tc.result "TASK FEEDBACK:" = true
        ∧ matchTaskFeedback tc.result = some fb
        ∧ afterModel s (some tc)
            = { currentTask := s.currentTask
                contextHistory := s.contextHistory ++ ["Task feedback: " ++ fb] })
    ∨ (tc.name = "attempt_completion" ∧ jsIncludes tc.result "y" = true
        ∧ afterModel s (some tc) = { contextHistory := [], currentTask := none })
    ∨ (¬(tc.name = "attempt_completion" ∧ jsIncludes tc.result "y" = true)
        ∧ afterModel s (some tc)
            = { currentTask := s.currentTask
                contextHistory := s.contextHistory ++ [genericEntry (some tc) tc.result] }) := by
  by_cases hnew : tc.name = "new_task"
  · by_cases hconf : jsIncludes tc.result "NEW TASK CONFIRMED:" = true
    · cases hm : matchTaskConfirmed tc.result with
      | some p =>
        exact Or.inl ⟨p, hnew, hconf, rfl, afterModel_confirmed_some s tc p hnew hconf hm⟩
      | none =>
        exact Or.inr (Or.inl ⟨hnew, hconf, rfl, afterModel_confirmed_none s tc hnew hconf hm⟩)
    · have hconf2 : jsIncludes tc.result "NEW TASK CONFIRMED:" = false := by
        simpa using hconf
      have hne : tc.name ≠ "attempt_completion" := by
        rw [hnew]; decide
      by_cases hfb : jsIncludes tc.result "TASK FEEDBACK:" = true
      · cases hm : matchTaskFeedback tc.result with
        | some fb =>
          exact Or.inr (Or.inr (Or.inl
            ⟨fb, hnew, hconf2, hfb, rfl, afterModel_feedback_some s tc fb hnew hconf2 hfb hm⟩))
        | none =>
          refine Or.inr (Or.inr (Or.inr (Or.inr ⟨fun hc => hne hc.1, ?_⟩)))
          rw [afterModel_rest_eq s tc (Or.inr ⟨hconf2, Or.inr hm⟩)]
          exact afterModelRest_generic s tc hne
      · have hfb2 : jsIncludes tc.result "TASK FEEDBACK:" = false := by
          simpa using hfb
        refine Or.inr (Or.inr (Or.inr (Or.inr ⟨fun hc => hne hc.1, ?_⟩)))
        rw [afterModel_rest_eq s tc (Or.inr ⟨hconf2, Or.inl hfb2⟩)]
        exact afterModelRest_generic s tc hne
  · have heq := afterModel_rest_eq s tc (Or.inl hnew)
    rcases afterModelRest_cases s tc with ⟨he, hn, hy⟩ | ⟨he, hnc⟩
    · exact Or.inr (Or.inr (Or.inr (Or.inl ⟨hn, hy, heq.trans he⟩)))
    · exact Or.inr (Or.inr (Or.inr (Or.inr ⟨hnc, heq.trans he⟩)))

/-- C5: for every prior Session State, a NEW_TASK outcome with
resultText exactly `NEW TASK CONFIRMED: task_7 - "fix bug"` sets the
current task to `fix bug` and appends the single entry
`Started task: fix bug` to the history. -/
theorem c5_new_task_confirmed_sets_task (s : SessionState) :
    afterModel s
        (some { name := "new_task", result := "NEW TASK CONFIRMED: task_7 - \"fix bug\"" })
      = { contextHistory := s.contextHistory ++ ["Started task: fix bug"]
          currentTask := some "fix bug" } := by
  have hm : matchTaskConfirmed "NEW TASK CONFIRMED: task_7 - \"fix bug\""
      = some ("task_7", "fix bug") := by decide
  exact afterModel_confirmed_some s
    { name := "new_task", result := "NEW TASK CONFIRMED: task_7 - \"fix bug\"" }
    ("task_7", "fix bug") rfl (by decide) hm

/-- C6: for every prior Session State, a NEW_TASK outcome with
resultText `TASK FEEDBACK: "not that task"` leaves the current task
unchanged (set or absent) and appends exactly the entry
`Task feedback: not that task`. -/
theorem c6_task_feedback_appends_and_preserves_task (s : SessionState) :
    afterModel s (some { name := "new_task", result := "TASK FEEDBACK: \"not that task\"" })
      = { contextHistory := s.contextHistory ++ ["Task feedback: not that task"]
          currentTask := s.currentTask } := by
  exact afterModel_feedback_some s
    { name := "new_task", result := "TASK FEEDBACK: \"not that task\"" }
    "not that task" rfl (by decide) (by decide) (by decide)

/-- C1: with a non-empty history, an `attempt_completion` outcome whose
resultText is `"y"` resets the Session State to the empty state, and the
next model request disables every tool and forbids tool use, which is
how the loop terminates; conversely any request built with
`toolChoice = "none"` can only come from a satisfied completion with
non-empty history, and from the freshly reset (empty) state no outcome
counts as satisfied, so the reset happens once. -/
theorem c1_satisfied_completion_resets_and_terminates
    (s : SessionState) (req : ModelRequest) (h : s.contextHistory ≠ []) :
    afterModel s (some { name := "attempt_completion", result := "y" })
        = { contextHistory := [], currentTask := none }
    ∧ (modifyModelRequest req s (some { name := "attempt_completion", result := "y" })).toolChoice
        = "none"
    ∧ (modifyModelRequest req s (some { name := "attempt_completion", result := "y" })).tools = []
    ∧ (∀ (req2 : ModelRequest) (s2 : SessionState) (tc2 : Option ToolCall),
        (modifyModelRequest req2 s2 tc2).toolChoice = "none" →
          s2.contextHistory ≠ []
          ∧ ∃ t : ToolCall, tc2 = some t ∧ t.name = "attempt_completion"
              ∧ resultIndicatesSatisfaction t.result = true)
    ∧ (∀ tc2 : Option ToolCall, isUserSatisfied initialState tc2 = false) := by
  have hlen : 0 < s.contextHistory.length := List.length_pos.mpr h
  have hsat : isUserSatisfied s (some { name := "attempt_completion", result := "y" }) = true := by
    simp only [isUserSatisfied, lastName_some, Bool.and_eq_true, decide_eq_true_eq]
    exact ⟨⟨hlen, trivial⟩, by decide⟩
  refine ⟨rfl, by simp [modifyModelRequest, hsat], by simp [modifyModelRequest, hsat], ?_, ?_⟩
  · intro req2 s2 tc2 hterm
    by_cases hs : isUserSatisfied s2 tc2 = true
    · have hs2 := hs
      simp only [isUserSatisfied, Bool.and_eq_true, decide_eq_true_eq] at hs2
      obtain ⟨⟨hl, hn⟩, hr⟩ := hs2
      cases tc2 with
      | none => simp [lastName] at hn
      | some t =>
        have hname : t.name = "attempt_completion" := by simpa [lastName_some] using hn
        refine ⟨?_, t, rfl, hname, hr⟩
        intro he
        rw [he] at hl
        simp at hl
    · unfold modifyModelRequest at hterm
      rw [if_neg hs] at hterm
      have hne : ("required" : String) ≠ "none" := by decide
      exact absurd hterm hne
  · intro tc2
    simp [isUserSatisfied, initialState]

theorem c1_witness :
    afterModel { contextHistory := ["list_files: completed successfully"], currentTask := some "t" }
        (some { name := "attempt_completion", result := "y" })
      = { contextHistory := [], currentTask := none } :=
  (c1_satisfied_completion_resets_and_terminates
    { contextHistory := ["list_files: completed successfully"], currentTask := some "t" }
    sampleRequest (by decide)).1

/-- C2: with a non-empty history, an `attempt_completion` outcome counts
as affirmative satisfaction exactly when some character of its
resultText lowercases to `y`; in particular `yes`, `why not` and
`maybe` all count, while `N` (or any reply without a `y` in either
case) does not. -/
theorem c2_affirmative_satisfaction_iff_contains_y
    (s : SessionState) (tc : ToolCall)
    (hname : tc.name = "attempt_completion") (hhist : s.contextHistory ≠ []) :
    (isUserSatisfied s (some tc) = true ↔ ∃ c ∈ tc.result.data, Char.toLower c = 'y')
    ∧ isUserSatisfied s (some { name := "attempt_completion", result := "yes" }) = true
    ∧ isUserSatisfied s (some { name := "attempt_completion", result := "why not" }) = true
    ∧ isUserSatisfied s (some { name := "attempt_completion", result := "maybe" }) = true
    ∧ isUserSatisfied s (some { name := "attempt_completion", result := "N" }) = false := by
  have hlen : 0 < s.contextHistory.length := List.length_pos.mpr hhist
  have hgen : ∀ (t : ToolCall), t.name = "attempt_completion" →
      (isUserSatisfied s (some t) = true ↔ resultIndicatesSatisfaction t.result = true) := by
    intro t ht
    simp [isUserSatisfied, lastName_some, ht, hlen]
  refine ⟨?_, ?_, ?_, ?_, ?_⟩
  · rw [hgen tc hname]
    exact satisfaction_iff tc.result
  · rw [hgen _ rfl]
    decide
  · rw [hgen _ rfl]
    decide
  · rw [hgen _ rfl]
    decide
  · rw [Bool.eq_false_iff]
    intro hc
    rw [hgen _ rfl] at hc
    exact absurd hc (by decide)

theorem c2_witness :
    isUserSatisfied
        { contextHistory := ["read_file: completed successfully"], currentTask := some "t" }
        (some { name := "attempt_completion", result := "yes" }) = true :=
  (c2_affirmative_satisfaction_iff_contains_y
    { contextHistory := ["read_file: completed successfully"], currentTask := some "t" }
    { name := "attempt_completion", result := "yes" } rfl (by decide)).2.1

/-- C3: an `attempt_completion` outcome with resultText `"y"` arriving
on an empty history is not judged satisfied and the next request still
forces tool use, so the loop does not terminate; in general
satisfaction requires a non-empty history. -/
theorem c3_empty_history_completion_does_not_terminate
    (req : ModelRequest) (ct : Option String) :
    isUserSatisfied { contextHistory := [], currentTask := ct }
        (some { name := "attempt_completion", result := "y" }) = false
    ∧ (modifyModelRequest req { contextHistory := [], currentTask := ct }
        (some { name := "attempt_completion", result := "y" })).toolChoice = "required"
    ∧ ∀ (s : SessionState) (tc : Option ToolCall),
        isUserSatisfied s tc = true → s.contextHistory ≠ [] := by
  have hfalse : isUserSatisfied { contextHistory := [], currentTask := ct }
      (some { name := "attempt_completion", result := "y" }) = false := by
    simp [isUserSatisfied]
  refine ⟨hfalse, ?_, ?_⟩
  · unfold modifyModelRequest
    rw [if_neg (by simp [hfalse])]
  · intro s tc hs
    simp only [isUserSatisfied, Bool.and_eq_true, decide_eq_true_eq] at hs
    intro he
    rw [he] at hs
    simp at hs

theorem c3_witness :
    isUserSatisfied { contextHistory := [], currentTask := some "t" }
        (some { name := "attempt_completion", result := "y" }) = false :=
  (c3_empty_history_completion_does_not_terminate sampleRequest (some "t")).1

/-- C10: the termination check lowercases the completion reply while the
state-reset check tests the raw reply, so on a reply of exactly `"Y"`
with non-empty history the loop terminates as satisfied while the
Session State is not cleared: the generic entry
`attempt_completion: completed successfully` is appended and the
current task stays as it was. -/
theorem c10_uppercase_reply_terminates_without_reset
    (s : SessionState) (req : ModelRequest) (h : s.contextHistory ≠ []) :
    isUserSatisfied s (some { name := "attempt_completion", result := "Y" }) = true
    ∧ (modifyModelRequest req s (some { name := "attempt_completion", result := "Y" })).toolChoice
        = "none"
    ∧ jsIncludes "Y" "y" = false
    ∧ afterModel s (some { name := "attempt_completion", result := "Y" })
        = { contextHistory := s.contextHistory ++ ["attempt_completion: completed successfully"]
            currentTask := s.currentTask } := by
  have hlen : 0 < s.contextHistory.length := List.length_pos.mpr h
  have hsat : isUserSatisfied s (some { name := "attempt_completion", result := "Y" }) = true := by
    simp only [isUserSatisfied, lastName_some, Bool.and_eq_true, decide_eq_true_eq]
    exact ⟨⟨hlen, trivial⟩, by decide⟩
  refine ⟨hsat, by simp [modifyModelRequest, hsat], by decide, ?_⟩
  rw [afterModel_rest_eq s { name := "attempt_completion", result := "Y" } (Or.inl (by decide))]
  rcases afterModelRest_cases s { name := "attempt_completion", result := "Y" } with
    ⟨_, _, hy⟩ | ⟨he, _⟩
  · exact absurd hy (by decide)
  · exact he

theorem c10_witness :
    afterModel { contextHistory := ["read_file: completed successfully"], currentTask := some "t" }
        (some { name := "attempt_completion", result := "Y" })
      = { contextHistory := ["read_file: completed successfully",
                             "attempt_completion: completed successfully"]
          currentTask := some "t" } :=
  (c10_uppercase_reply_terminates_without_reset
    { contextHistory := ["read_file: completed successfully"], currentTask := some "t" }
    sampleRequest (by decide)).2.2.2

/-- C7 counterexample: a `new_task` outcome whose resultText contains
`NEW TASK CONFIRMED:` but matches neither full pattern does not fall
through to the generic handling: it clears the current task and appends
`Started task: undefined`. -/
theorem c7_counterexample :
    matchTaskConfirmed "NEW TASK CONFIRMED: oops" = none
    ∧ matchTaskFeedback "NEW TASK CONFIRMED: oops" = none
    ∧ afterModel { contextHistory := [], currentTask := some "t" }
        (some { name := "new_task", result := "NEW TASK CONFIRMED: oops" })
        = { contextHistory := ["Started task: undefined"], currentTask := none }
    ∧ ¬(afterModel { contextHistory := [], currentTask := some "t" }
        (some { name := "new_task", result := "NEW TASK CONFIRMED: oops" })
        = { contextHistory := ["new_task: completed successfully"], currentTask := some "t" }) := by
  decide

/-- C7 amended: a `new_task` outcome whose resultText does not contain
`NEW TASK CONFIRMED:` and does not produce an accepted feedback match
falls through to the generic step-3 handling (current task unchanged,
one generic entry, no error); a resultText that does contain
`NEW TASK CONFIRMED:` without matching the full pattern instead clears
the current task and appends `Started task: undefined`. -/
theorem c7_amended_fallthrough :
    (∀ (s : SessionState) (tc : ToolCall), tc.name = "new_task"
      → jsIncludes tc.result "NEW TASK CONFIRMED:" = false
      → (jsIncludes tc.result "TASK FEEDBACK:" = false ∨ matchTaskFeedback tc.result = none)
      → afterModel s (some tc)
          = { currentTask := s.currentTask
              contextHistory := s.contextHistory ++ [genericEntry (some tc) tc.result] })
    ∧ (∀ (s : SessionState) (tc : ToolCall), tc.name = "new_task"
      → jsIncludes tc.result "NEW TASK CONFIRMED:" = true
      → matchTaskConfirmed tc.result = none
      → afterModel s (some tc)
          = { currentTask := none
              contextHistory := s.contextHistory ++ ["Started task: undefined"] }) := by
  constructor
  · intro s tc hn hc hf
    have hne : tc.name ≠ "attempt_completion" := by rw [hn]; decide
    rw [afterModel_rest_eq s tc (Or.inr ⟨hc, hf⟩)]
    exact afterModelRest_generic s tc hne
  · intro s tc hn hc hm
    exact afterModel_confirmed_none s tc hn hc hm

theorem c7_witness :
    afterModel { contextHistory := [], currentTask := some "t" }
        (some { name := "new_task", result := "hello" })
      = { contextHistory := ["new_task: completed successfully"], currentTask := some "t" } :=
  c7_amended_fallthrough.1 { contextHistory := [], currentTask := some "t" }
    { name := "new_task", result := "hello" } rfl (by decide) (Or.inl (by decide))

/-- C8 counterexample: an unmatched `new_task` outcome containing the
confirmation marker appends `Started task: undefined` instead of the
generic `new_task: completed successfully` entry, although its
resultText carries no error marker. -/
theorem c8_counterexample :
    categoryOf "new_task" = some Category.NEW_TASK
    ∧ matchTaskConfirmed "NEW TASK CONFIRMED: task" = none
    ∧ matchTaskFeedback "NEW TASK CONFIRMED: task" = none
    ∧ hasErrorMarker "NEW TASK CONFIRMED: task" = false
    ∧ afterModel { contextHistory := ["w"], currentTask := some "t" }
        (some { name := "new_task", result := "NEW TASK CONFIRMED: task" })
        = { contextHistory := ["w", "Started task: undefined"], currentTask := none }
    ∧ ¬(afterModel { contextHistory := ["w"], currentTask := some "t" }
        (some { name := "new_task", result := "NEW TASK CONFIRMED: task" })
        = { contextHistory := ["w", "new_task: completed successfully"]
            currentTask := some "t" }) := by
  decide

/-- C8 amended: every ACTION or QUESTION outcome, and every `new_task`
outcome that neither contains `NEW TASK CONFIRMED:` nor produces an
accepted feedback match, appends exactly one context entry of the form
`<identifier>: encountered error` / `<identifier>: completed
successfully`, the error form being chosen exactly when the resultText
contains `Error:` or `does not exist`. -/
theorem c8_amended_generic_entry :
    (∀ (s : SessionState) (tc : ToolCall),
      (categoryOf tc.name = some Category.ACTION ∨ categoryOf tc.name = some Category.QUESTION)
      → afterModel s (some tc)
          = { currentTask := s.currentTask
              contextHistory := s.contextHistory ++ [genericEntry (some tc) tc.result] })
    ∧ (∀ (s : SessionState) (tc : ToolCall), tc.name = "new_task"
      → jsIncludes tc.result "NEW TASK CONFIRMED:" = false
      → (jsIncludes tc.result "TASK FEEDBACK:" = false ∨ matchTaskFeedback tc.result = none)
      → afterModel s (some tc)
          = { currentTask := s.currentTask
              contextHistory := s.contextHistory ++ [genericEntry (some tc) tc.result] })
    ∧ (∀ (tc : ToolCall),
        genericEntry (some tc) tc.result
          = if hasErrorMarker tc.result then tc.name ++ ": encountered error"
            else tc.name ++ ": completed successfully")
    ∧ (∀ (r : String), hasErrorMarker r = true
        ↔ (jsIncludes r "Error:" = true ∨ jsIncludes r "does not exist" = true)) := by
  refine ⟨?_, ?_, ?_, ?_⟩
  · intro s tc h
    have hne : tc.name ≠ "new_task" ∧ tc.name ≠ "attempt_completion" := by
      constructor <;> intro he <;> rcases h with h | h <;> rw [he] at h <;>
        exact absurd h (by decide)
    rw [afterModel_rest_eq s tc (Or.inl hne.1)]
    exact afterModelRest_generic s tc hne.2
  · intro s tc hn hc hf
    have hne : tc.name ≠ "attempt_completion" := by rw [hn]; decide
    rw [afterModel_rest_eq s tc (Or.inr ⟨hc, hf⟩)]
    exact afterModelRest_generic s tc hne
  · intro tc
    rfl
  · intro r
    unfold hasErrorMarker
    exact iff_of_eq (Bool.or_eq_true _ _)

theorem c8_witness :
    afterModel { contextHistory := [], currentTask := some "t" }
        (some { name := "read_file", result := readFileMissingMsg "a.ts" })
      = { contextHistory := ["read_file: encountered error"], currentTask := some "t" } :=
  c8_amended_generic_entry.1 { contextHistory := [], currentTask := some "t" }
    { name := "read_file", result := readFileMissingMsg "a.ts" } (Or.inl (by decide))

/-- C9: in the suspension protocol, a blank (empty or all-whitespace)
reply on a prompt whose label signals a yes/no question (contains
`y/N`) is accepted as the negative answer `N`; a blank reply on any
other prompt is re-prompted rather than accepted; a non-blank reply is
always accepted as-is; and no accepted resume value is blank. -/
theorem c9_suspension_empty_reply_handling (label r : String) (rest : List String) :
    (isBlank r = true → jsIncludes label "y/N" = true
      → obtainReply label (r :: rest) = some "N")
    ∧ (isBlank r = true → jsIncludes label "y/N" = false
      → obtainReply label (r :: rest) = obtainReply label rest)
    ∧ (isBlank r = false → obtainReply label (r :: rest) = some r)
    ∧ (∀ (replies : List String) (v : String),
        obtainReply label replies = some v → isBlank v = false) := by
  refine ⟨?_, ?_, ?_, ?_⟩
  · intro hb hy
    simp [obtainReply, hb, hy]
  · intro hb hy
    simp [obtainReply, hb, hy]
  · intro hb
    simp [obtainReply, hb]
  · intro replies
    induction replies with
    | nil =>
      intro v hv
      simp [obtainReply] at hv
    | cons a t ih =>
      intro v hv
      by_cases hb : isBlank a = true
      · by_cases hy : jsIncludes label "y/N" = true
        · simp [obtainReply, hb, hy] at hv
          rw [← hv]
          decide
        · simp [obtainReply, hb, hy] at hv
          exact ih v hv
      · simp [obtainReply, hb] at hv
        have hf : isBlank a = false := by simpa using hb
        rw [← hv]
        exact hf

theorem c9_witness :
    obtainReply newTaskLabel [""] = some "N"
    ∧ obtainReply clarificationLabel ["", "use src/index.ts"] = some "use src/index.ts" := by
  constructor
  · exact (c9_suspension_empty_reply_handling newTaskLabel "" []).1 (by decide) (by decide)
  · have h1 := (c9_suspension_empty_reply_handling clarificationLabel ""
      ["use src/index.ts"]).2.1 (by decide) (by decide)
    rw [h1]
    exact (c9_suspension_empty_reply_handling clarificationLabel "use src/index.ts" []).2.2.1
      (by decide)

/-- A step can only set the current task to a label extracted by a full
task-confirmation match of the step's own outcome. -/
lemma step_task_some_aux (s : SessionState) (tc : ToolCall) (l : String)
    (h : (stepState s tc).currentTask = some l) :
    s.currentTask = some l
    ∨ (tc.name = "new_task" ∧ ∃ id, matchTaskConfirmed tc.result = some (id, l)) := by
  rcases afterModel_shape s tc with
    ⟨p, hn, _, hm, he⟩ | ⟨_, _, _, he⟩ | ⟨fb, _, _, _, _, he⟩ | ⟨_, _, he⟩ | ⟨_, he⟩
  · rw [stepState, he] at h
    have hinj : p.2 = l := by simpa using h
    refine Or.inr ⟨hn, p.1, ?_⟩
    rw [← hinj]
    exact hm
  · rw [stepState, he] at h
    simp at h
  · rw [stepState, he] at h
    exact Or.inl h
  · rw [stepState, he] at h
    simp at h
  · rw [stepState, he] at h
    exact Or.inl h

/-- Along any run, a set current task traces back to an accepted
confirmation in the run. -/
lemma foldl_task_some (trace : List ToolCall) :
    ∀ (s : SessionState) (l : String),
      (trace.foldl stepState s).currentTask = some l
      → s.currentTask = some l
        ∨ ∃ t ∈ trace, t.name = "new_task"
            ∧ ∃ id, matchTaskConfirmed t.result = some (id, l) := by
  induction trace with
  | nil =>
    intro s l h
    exact Or.inl h
  | cons tc rest ih =>
    intro s l h
    rcases ih (stepState s tc) l h with h1 | ⟨t, ht, hp⟩
    · rcases step_task_some_aux s tc l h1 with h2 | h2
      · exact Or.inl h2
      · exact Or.inr ⟨tc, List.mem_cons_self tc rest, h2⟩
    · exact Or.inr ⟨t, List.mem_cons_of_mem tc ht, hp⟩

/-- C4 counterexample: starting from the empty state, a NEW_TASK
confirmation is accepted (the task becomes set) and no COMPLETION
outcome ever occurs, yet after a second `new_task` outcome containing
the confirmation marker without the full pattern the current task is
unset — refuting the claimed if-and-only-if characterization of a set
`currentTask` over reachable states. -/
theorem c4_counterexample :
    (runTrace [{ name := "new_task", result := "NEW TASK CONFIRMED: task_1 - \"fix bug\"" }]).currentTask
        = some "fix bug"
    ∧ (runTrace [{ name := "new_task", result := "NEW TASK CONFIRMED: task_1 - \"fix bug\"" },
                 { name := "new_task", result := "NEW TASK CONFIRMED: undo that" }]).currentTask
        = none
    ∧ (runTrace [{ name := "new_task", result := "NEW TASK CONFIRMED: task_1 - \"fix bug\"" },
                 { name := "new_task", result := "NEW TASK CONFIRMED: undo that" }]).contextHistory
        = ["Started task: fix bug", "Started task: undefined"] := by
  decide

/-- C4 amended: every step appends exactly one entry unless it is the
`attempt_completion`-with-raw-`y` reset, which clears the history;
the history length strictly decreases only on a satisfied completion;
the current task, when set, comes from the prior state or from a full
task confirmation of the step's outcome — but it can also be cleared,
without any completion, by a `new_task` outcome containing
`NEW TASK CONFIRMED:` that fails the full pattern; and over whole runs
from the empty state a set current task always traces back to an
accepted confirmation. -/
theorem c4_amended_invariant :
    (∀ (s : SessionState) (tc : ToolCall),
      (stepState s tc).contextHistory.length = s.contextHistory.length + 1
      ∨ ((stepState s tc).contextHistory = []
          ∧ tc.name = "attempt_completion" ∧ jsIncludes tc.result "y" = true))
    ∧ (∀ (s : SessionState) (tc : ToolCall),
        (stepState s tc).contextHistory.length < s.contextHistory.length
        → isUserSatisfied s (some tc) = true)
    ∧ (∀ (s : SessionState) (tc : ToolCall) (l : String),
        (stepState s tc).currentTask = some l
        → s.currentTask = some l
          ∨ (tc.name = "new_task" ∧ ∃ id, matchTaskConfirmed tc.result = some (id, l)))
    ∧ (∀ (s : SessionState) (tc : ToolCall),
        (stepState s tc).currentTask = none
        → s.currentTask = none
          ∨ (tc.name = "attempt_completion" ∧ jsIncludes tc.result "y" = true)
          ∨ (tc.name = "new_task" ∧ jsIncludes tc.result "NEW TASK CONFIRMED:" = true
              ∧ matchTaskConfirmed tc.result = none))
    ∧ (∀ (trace : List ToolCall) (l : String),
        (runTrace trace).currentTask = some l
        → ∃ t ∈ trace, t.name = "new_task"
            ∧ ∃ id, matchTaskConfirmed t.result = some (id, l)) := by
  refine ⟨?_, ?_, step_task_some_aux, ?_, ?_⟩
  · intro s tc
    rcases afterModel_shape s tc with
      ⟨p, _, _, _, he⟩ | ⟨_, _, _, he⟩ | ⟨fb, _, _, _, _, he⟩ | ⟨hn, hy, he⟩ | ⟨_, he⟩
    · rw [stepState, he]
      simp
    · rw [stepState, he]
      simp
    · rw [stepState, he]
      simp
    · right
      rw [stepState, he]
      exact ⟨rfl, hn, hy⟩
    · rw [stepState, he]
      simp
  · intro s tc hlt
    rcases afterModel_shape s tc with
      ⟨p, _, _, _, he⟩ | ⟨_, _, _, he⟩ | ⟨fb, _, _, _, _, he⟩ | ⟨hn, hy, he⟩ | ⟨_, he⟩
    · rw [stepState, he] at hlt
      simp at hlt
    · rw [stepState, he] at hlt
      simp at hlt
    · rw [stepState, he] at hlt
      simp at hlt
    · rw [stepState, he] at hlt
      have hlen : 0 < s.contextHistory.length := by simpa using hlt
      simp only [isUserSatisfied, lastName_some, Bool.and_eq_true, decide_eq_true_eq]
      refine ⟨⟨hlen, by rw [hn]⟩, satisfaction_of_raw tc.result hy⟩
    · rw [stepState, he] at hlt
      simp at hlt
  · intro s tc h
    rcases afterModel_shape s tc with
      ⟨p, _, _, _, he⟩ | ⟨hn, hc, hm, he⟩ | ⟨fb, _, _, _, _, he⟩ | ⟨hn, hy, he⟩ | ⟨_, he⟩
    · rw [stepState, he] at h
      simp at h
    · exact Or.inr (Or.inr ⟨hn, hc, hm⟩)
    · rw [stepState, he] at h
      exact Or.inl h
    · exact Or.inr (Or.inl ⟨hn, hy⟩)
    · rw [stepState, he] at h
      exact Or.inl h
  · intro trace l h
    rcases foldl_task_some trace initialState l h with h1 | h2
    · exact absurd h1 (by simp [initialState])
    · exact h2

theorem c4_witness :
    (stepState { contextHistory := ["Started task: fix bug"], currentTask := some "fix bug" }
        { name := "read_file", result := "File: a.ts (1 lines, 2 characters)" }).contextHistory.length
      = (["Started task: fix bug"] : List String).length + 1 := by
  rcases c4_amended_invariant.1
      { contextHistory := ["Started task: fix bug"], currentTask := some "fix bug" }
      { name := "read_file", result := "File: a.ts (1 lines, 2 characters)" } with h | h
  · exact h
  · exact absurd h.2.1 (by decide)
